import Mathlib

/-
  Verification development for the DSCS (Digimon Story Cyber Sleuth)
  Blender import tooling.  The Lean definitions below are shallow embeddings of the
  Python sources:

    FileReaders/GeomReader/MaterialReader.py  (24-byte material records,
      shader identifier text form),
    CollatedData/FromReadWrites.py            (triangle strips, animation
      bitmask expansion, vertex weighting, bone transforms, material names),
    BlenderIO/Import.py                       (skeleton bone construction).

  Conventions of the embedding:
    - byte strings are lists of Nat, each element expected to be < 256;
    - a 32-bit IEEE float that is only moved around (never computed with) is
      represented by its raw 32-bit little-endian pattern, so that the
      struct.unpack / struct.pack pair is the identity on the pattern;
    - scalar values that take part in arithmetic (vertex positions, UVs,
      weights, bone transforms) are represented as rationals;
    - fallible Python code (assertions, KeyError, IndexError, struct.error)
      is modelled with Option.
-/

/-- Little-endian 16-bit value of two bytes (struct format H). -/
def u16le (b0 b1 : Nat) : Nat := b0 + 256 * b1

/-- Little-endian 32-bit value of four bytes (struct formats I and f; floats
are carried as their raw bit patterns). -/
def u32le (b0 b1 b2 b3 : Nat) : Nat :=
  b0 + 256 * b1 + 65536 * b2 + 16777216 * b3

/-- The two little-endian bytes of a 16-bit value (struct.pack format H);
callers guard the value below 65536 as struct.pack does. -/
def packU16 (v : Nat) : List Nat := [v % 256, v / 256]

/-- The four little-endian bytes of a 32-bit value (struct.pack formats I and
f); callers guard the value below 2 to the 32 where struct.pack does. -/
def packU32 (v : Nat) : List Nat :=
  [v % 256, v / 256 % 256, v / 65536 % 256, v / 16777216]

/-- Association-list lookup, the model of a Python dict lookup
(none models a KeyError). -/
def assocLookup {α β : Type} [DecidableEq α] (a : α) : List (α × β) → Option β
  | [] => none
  | (k, v) :: t => if a = k then some v else assocLookup a t

/-
  ===========================================================================
  MaterialReader.py
  ===========================================================================
-/

/-- MaterialReader.shader_uniform_from_ids (MaterialReader.py lines 27-71):
the fixed id-to-name table for shader uniform records. -/
def shader_uniform_from_ids : List (Nat × String) :=
  [(50, "DiffuseTextureID"),
   (51, "DiffuseColour"),
   (53, "NormalMapTextureID"),
   (54, "Bumpiness"),
   (56, "SpecularStrength"),
   (57, "SpecularPower"),
   (58, "CubeMapTextureID"),
   (59, "ReflectionStrength"),
   (60, "FresnelExp"),
   (61, "FresnelMin"),
   (62, "FuzzySpecColor"),
   (63, "SubColor"),
   (64, "SurfaceColor"),
   (65, "Rolloff"),
   (66, "VelvetStrength"),
   (67, "UnknownTextureSlot1"),
   (68, "OverlayTextureID"),
   (69, "UnknownTextureSlot2"),
   (70, "OverlayBumpiness"),
   (71, "OverlayStrength"),
   (72, "ToonTextureID"),
   (75, "Curvature"),
   (76, "GlassStrength"),
   (77, "UpsideDown"),
   (79, "ParallaxBiasX"),
   (80, "ParallaxBiasY"),
   (84, "Time"),
   (85, "ScrollSpeedSet1"),
   (88, "ScrollSpeedSet2"),
   (91, "ScrollSpeedSet3"),
   (94, "OffsetSet1"),
   (97, "OffsetSet2"),
   (100, "DistortionStrength"),
   (113, "LightMapStrength"),
   (114, "LightMapPower"),
   (116, "OffsetSet3"),
   (119, "Fat"),
   (120, "RotationSet1"),
   (123, "RotationSet2"),
   (129, "ScaleSet1"),
   (141, "ZBias"),
   (142, "UnknownTextureSlot3")]

/-- MaterialReader.shader_uniform_from_names (MaterialReader.py line 72):
the reversed dictionary, mapping uniform names back to ids. -/
def shader_uniform_from_names : List (String × Nat) :=
  shader_uniform_from_ids.map (fun p => (p.2, p.1))

/-- Modelled from the spec: the table shader_uniforms_from_defn of the module
FileReaders/GeomReader/ShaderUniforms.py is not part of the given sources; per
the spec (section 6) it is a fixed bidirectional constant table keyed by the
uniform name together with its float count, and the float counts are the ones
recorded next to each entry of shader_uniform_from_ids in MaterialReader.py.
Only its key set matters for decoding, since the constructed value object
stores exactly the float count and the payload. -/
def shader_uniforms_from_defn_keys : List (String × Nat) :=
  [("DiffuseTextureID", 0),
   ("DiffuseColour", 4),
   ("NormalMapTextureID", 0),
   ("Bumpiness", 1),
   ("SpecularStrength", 1),
   ("SpecularPower", 1),
   ("CubeMapTextureID", 0),
   ("ReflectionStrength", 1),
   ("FresnelExp", 1),
   ("FresnelMin", 1),
   ("FuzzySpecColor", 3),
   ("SubColor", 3),
   ("SurfaceColor", 3),
   ("Rolloff", 1),
   ("VelvetStrength", 1),
   ("UnknownTextureSlot1", 0),
   ("OverlayTextureID", 0),
   ("UnknownTextureSlot2", 0),
   ("OverlayBumpiness", 1),
   ("OverlayStrength", 1),
   ("ToonTextureID", 0),
   ("Curvature", 1),
   ("GlassStrength", 1),
   ("UpsideDown", 1),
   ("ParallaxBiasX", 1),
   ("ParallaxBiasY", 1),
   ("Time", 1),
   ("ScrollSpeedSet1", 2),
   ("ScrollSpeedSet2", 2),
   ("ScrollSpeedSet3", 2),
   ("OffsetSet1", 2),
   ("OffsetSet2", 2),
   ("DistortionStrength", 1),
   ("LightMapStrength", 1),
   ("LightMapPower", 1),
   ("OffsetSet3", 2),
   ("Fat", 1),
   ("RotationSet1", 1),
   ("RotationSet2", 1),
   ("ScaleSet1", 2),
   ("ZBias", 1),
   ("UnknownTextureSlot3", 0)]

/-- Modelled from the spec: the value object built by an entry of
shader_uniforms_from_defn (ShaderUniforms.py, absent from the sources); the
attributes num_floats and data are the ones read back by
shader_uniform_data_factory.  For a zero float count data holds the three kept
16-bit fields; otherwise it holds num_floats raw 32-bit float patterns. -/
structure ShaderUniformValue where
  num_floats : Nat
  data : List Nat
deriving DecidableEq, Repr

/-- MaterialReader.shader_uniform_factory (MaterialReader.py lines 145-166):
decode one 24-byte shader uniform record.  The assertions of the source are
modelled by returning none.  Note that the padding loop of the float branch in
the source iterates over payload with index at least num_floats AFTER payload
has already been truncated to its first num_floats entries, so that loop
checks nothing; accordingly no condition on the payload bytes beyond
4 * num_floats appears here. -/
def shader_uniform_factory (data : List Nat) : Option (String × ShaderUniformValue) :=
  match data with
  | [p0, p1, p2, p3, p4, p5, p6, p7, p8, p9, p10, p11, p12, p13, p14, p15,
     t, nf, s0, s1, r0, r1, r2, r3] =>
    match assocLookup t shader_uniform_from_ids with
    | none => none
    | some uniform_type =>
      if u16le s0 s1 = 65280 ∧ u32le r0 r1 r2 r3 = 0 then
        if nf = 0 then
          if u16le p2 p3 = 0 ∧ u16le p4 p5 = 0 ∧ u16le p6 p7 = 0 ∧
             u16le p8 p9 = 0 ∧ u16le p10 p11 = 0 then
            if (uniform_type, nf) ∈ shader_uniforms_from_defn_keys then
              some (uniform_type,
                    ⟨nf, [u16le p0 p1, u16le p12 p13, u16le p14 p15]⟩)
            else none
          else none
        else
          if 4 * nf ≤ 16 then
            if (uniform_type, nf) ∈ shader_uniforms_from_defn_keys then
              some (uniform_type,
                    ⟨nf, List.take nf
                           [u32le p0 p1 p2 p3, u32le p4 p5 p6 p7,
                            u32le p8 p9 p10 p11, u32le p12 p13 p14 p15]⟩)
            else none
          else none
      else none
  | _ => none

/-- MaterialReader.shader_uniform_data_factory (MaterialReader.py lines
168-180): encode one shader uniform back to its 24 bytes.  struct.pack range
errors and a failed reverse name lookup are modelled by none. -/
def shader_uniform_data_factory (uniform_type : String) (u : ShaderUniformValue) :
    Option (List Nat) :=
  match assocLookup uniform_type shader_uniform_from_names with
  | none => none
  | some uid =>
    if uid < 256 ∧ u.num_floats < 256 then
      if u.num_floats = 0 then
        match u.data with
        | [d0, d1, d2] =>
          if d0 < 65536 ∧ d1 < 65536 ∧ d2 < 65536 then
            some (packU16 d0 ++ List.replicate 10 0 ++ packU16 d1 ++ packU16 d2 ++
                  [uid, u.num_floats] ++ packU16 65280 ++ packU32 0)
          else none
        | _ => none
      else
        if u.data.length = u.num_floats then
          some ((u.data.map packU32).flatten ++
                List.replicate (4 * (4 - u.num_floats)) 0 ++
                [uid, u.num_floats] ++ packU16 65280 ++ packU32 0)
        else none
    else none

/-- The payload layout table possibly_umc_types (MaterialReader.py lines
226-236), with the three struct format strings If, II and HHI as an inductive
tag. -/
inductive UMCFormat where
  | fmtIf : UMCFormat
  | fmtII : UMCFormat
  | fmtHHI : UMCFormat
deriving DecidableEq, Repr

/-- MaterialReader possibly_umc_types (MaterialReader.py lines 226-236). -/
def possibly_umc_types : List (Nat × UMCFormat) :=
  [(160, UMCFormat.fmtIf),
   (161, UMCFormat.fmtII),
   (162, UMCFormat.fmtII),
   (163, UMCFormat.fmtHHI),
   (164, UMCFormat.fmtII),
   (166, UMCFormat.fmtII),
   (167, UMCFormat.fmtII),
   (168, UMCFormat.fmtII),
   (169, UMCFormat.fmtII),
   (172, UMCFormat.fmtII)]

/-- struct.unpack of the first 8 payload bytes of an unknown-component record
per its format (formats If and II both split them into two 32-bit patterns;
HHI into two 16-bit values and one 32-bit value). -/
def unpackUMC (fmt : UMCFormat) (b0 b1 b2 b3 b4 b5 b6 b7 : Nat) : List Nat :=
  match fmt with
  | UMCFormat.fmtIf => [u32le b0 b1 b2 b3, u32le b4 b5 b6 b7]
  | UMCFormat.fmtII => [u32le b0 b1 b2 b3, u32le b4 b5 b6 b7]
  | UMCFormat.fmtHHI => [u16le b0 b1, u16le b2 b3, u32le b4 b5 b6 b7]

/-- struct.pack of an unknown-component payload per its format, with the
struct.pack range checks. -/
def packUMC (fmt : UMCFormat) (vals : List Nat) : Option (List Nat) :=
  match fmt, vals with
  | UMCFormat.fmtIf, [a, b] =>
    if a < 4294967296 ∧ b < 4294967296 then some (packU32 a ++ packU32 b) else none
  | UMCFormat.fmtII, [a, b] =>
    if a < 4294967296 ∧ b < 4294967296 then some (packU32 a ++ packU32 b) else none
  | UMCFormat.fmtHHI, [a, b, c] =>
    if a < 65536 ∧ b < 65536 ∧ c < 4294967296 then
      some (packU16 a ++ packU16 b ++ packU32 c)
    else none
  | _, _ => none

/-- MaterialReader.umc_factory (MaterialReader.py lines 192-211): decode one
24-byte unknown-component record; assertions and the type-tag table lookup are
modelled by Option. -/
def umc_factory (data : List Nat) : Option (Nat × List Nat) :=
  match data with
  | [d0, d1, d2, d3, d4, d5, d6, d7, d8, d9, d10, d11, d12, d13, d14, d15,
     t, c100, s0, s1, r0, r1, r2, r3] =>
    if u16le d8 d9 = 0 ∧ u16le d10 d11 = 0 ∧ u16le d12 d13 = 0 ∧ u16le d14 d15 = 0 then
      if c100 = 100 ∧ u16le s0 s1 = 65280 ∧ u32le r0 r1 r2 r3 = 0 then
        match assocLookup t possibly_umc_types with
        | none => none
        | some fmt => some (t, unpackUMC fmt d0 d1 d2 d3 d4 d5 d6 d7)
      else none
    else none
  | _ => none

/-- MaterialReader.umc_data_factory (MaterialReader.py lines 213-224): encode
one unknown-component record back to its 24 bytes. -/
def umc_data_factory (t : Nat) (vals : List Nat) : Option (List Nat) :=
  match assocLookup t possibly_umc_types with
  | none => none
  | some fmt =>
    match packUMC fmt vals with
    | none => none
    | some payload =>
      if t < 256 then
        some (payload ++ packU16 0 ++ packU16 0 ++ packU16 0 ++ packU16 0 ++
              [t, 100] ++ packU16 65280 ++ packU32 0)
      else none

/-
  ===========================================================================
  MaterialReader.py: shader identifier text form
  (interpret_material lines 122-132, reinterpret_material lines 134-143)
  ===========================================================================
-/

/-- The lower-case hexadecimal digit character of a value below 16
(bytes.hex emits lower case). -/
def toHexDigit (n : Nat) : Char :=
  if n < 10 then Char.ofNat (48 + n) else Char.ofNat (87 + n)

/-- bytes.hex of a single byte: two lower-case hex digit characters. -/
def byteToHex (b : Nat) : List Char := [toHexDigit (b / 16), toHexDigit (b % 16)]

/-- bytes.hex of a byte string. -/
def bytesHex (bs : List Nat) : List Char := bs.flatMap byteToHex

/-- The numeric value of one hexadecimal digit character, upper or lower case
(bytes.fromhex accepts both); none models a ValueError. -/
def hexDigitVal (c : Char) : Option Nat :=
  if 48 ≤ c.toNat ∧ c.toNat ≤ 57 then some (c.toNat - 48)
  else if 97 ≤ c.toNat ∧ c.toNat ≤ 102 then some (c.toNat - 87)
  else if 65 ≤ c.toNat ∧ c.toNat ≤ 70 then some (c.toNat - 55)
  else none

/-- bytes.fromhex: parse pairs of hex digit characters into bytes (the
source never feeds it the separating spaces that bytes.fromhex would also
accept, so they are not modelled); none models a ValueError. -/
def fromHex : List Char → Option (List Nat)
  | [] => some []
  | c1 :: c2 :: rest =>
    match hexDigitVal c1, hexDigitVal c2, fromHex rest with
    | some d1, some d2, some bs => some ((16 * d1 + d2) :: bs)
    | _, _, _ => none
  | [_] => none

/-- str.split on the underscore character, accumulator form. -/
def splitUnderscoreGo (cur : List Char) : List Char → List (List Char)
  | [] => [cur.reverse]
  | c :: rest =>
    if c = '_' then cur.reverse :: splitUnderscoreGo [] rest
    else splitUnderscoreGo (c :: cur) rest

/-- str.split of a character list on the underscore character. -/
def splitUnderscore (s : List Char) : List (List Char) := splitUnderscoreGo [] s

/-- MaterialReader.interpret_material, shader hex part (MaterialReader.py
lines 122-129): the 16 identifier bytes are cut into four 4-byte groups, each
group is byte-reversed and hex encoded, and the groups are joined with
underscores. -/
def interpret_shader_hex (bs : List Nat) : List Char :=
  let p1 := bytesHex (bs.take 4).reverse
  let p2 := bytesHex ((bs.drop 4).take 4).reverse
  let p3 := bytesHex ((bs.drop 8).take 4).reverse
  let p4 := bytesHex ((bs.drop 12).take 4).reverse
  p1 ++ '_' :: (p2 ++ '_' :: (p3 ++ '_' :: p4))

/-- MaterialReader.reinterpret_material, shader hex part (MaterialReader.py
lines 134-142): split the text form on underscores, parse the first four
parts with bytes.fromhex, byte-reverse each and concatenate.  Indexing a
missing part is an IndexError, modelled by none; extra parts are ignored as
in the source. -/
def reinterpret_shader_hex (s : List Char) : Option (List Nat) :=
  match splitUnderscore s with
  | h1 :: h2 :: h3 :: h4 :: _ =>
    match fromHex h1, fromHex h2, fromHex h3, fromHex h4 with
    | some g1, some g2, some g3, some g4 =>
      some (g1.reverse ++ g2.reverse ++ g3.reverse ++ g4.reverse)
    | _, _, _, _ => none
  | _ => none

/-
  ===========================================================================
  CollatedData/FromReadWrites.py: triangle strips (lines 60-68)
  ===========================================================================
-/

/-- One step of the loop body of triangle_strips_to_polys
(FromReadWrites.py lines 62-67): the pair carries the enumerate index and the
three consecutive strip indices; the first two are swapped on odd loop
indices; the triangle is appended when its three indices are pairwise
distinct (len of its set is 3) and the same ordered triple was not already
collected. -/
def tspStep (acc : List (Nat × Nat × Nat)) (itri : Nat × (Nat × (Nat × Nat))) :
    List (Nat × Nat × Nat) :=
  let i := itri.1
  let a := itri.2.1
  let b := itri.2.2.1
  let c := itri.2.2.2
  let tri := if i % 2 = 0 then (a, b, c) else (b, a, c)
  if (tri.1 ≠ tri.2.1 ∧ tri.1 ≠ tri.2.2 ∧ tri.2.1 ≠ tri.2.2) ∧ tri ∉ acc then
    acc ++ [tri]
  else acc

/-- FromReadWrites.triangle_strips_to_polys (FromReadWrites.py lines 60-68):
fold the loop body over the enumerated zip of the strip with its two tails. -/
def triangle_strips_to_polys (idxs : List Nat) : List (Nat × Nat × Nat) :=
  ((idxs.zip (idxs.tail.zip idxs.tail.tail)).enum).foldl tspStep []

/-- Spec-side formulation of the (amended) strip decode, written from the
words of the specification: triangle k is taken from the strip indices at
positions k, k+1, k+2, with the first two indices swapped on every odd k; it
is skipped when its three indices are not pairwise distinct, and skipped when
it repeats an already emitted ordered triple. -/
def specStripGo (k : Nat) (a b : Nat) : List Nat → List (Nat × Nat × Nat) →
    List (Nat × Nat × Nat)
  | [], emitted => emitted
  | c :: rest, emitted =>
    let tri := if k % 2 = 0 then (a, b, c) else (b, a, c)
    let emitted2 :=
      if (tri.1 ≠ tri.2.1 ∧ tri.1 ≠ tri.2.2 ∧ tri.2.1 ≠ tri.2.2) ∧ tri ∉ emitted then
        emitted ++ [tri]
      else emitted
    specStripGo (k + 1) b c rest emitted2

/-- Spec-side strip decode over a whole index list. -/
def specStripDecode : List Nat → List (Nat × Nat × Nat)
  | a :: b :: rest => specStripGo 0 a b rest []
  | _ => []

/-- The three indices of a triangle as a sorted list, the normal form of the
unordered index set the specification speaks about. -/
def triNorm (t : Nat × Nat × Nat) : List Nat :=
  List.insertionSort (· ≤ ·) [t.1, t.2.1, t.2.2]

/-
  ===========================================================================
  CollatedData/FromReadWrites.py: animation bitmask expansion
  (add_anims lines 249-271)
  ===========================================================================
-/

/-- The list comprehension of add_anims (FromReadWrites.py line 258):
frames are offset + cumulative + 1 for every mask character equal to the
digit one, the offset counting from 0. -/
def maskFramesGo (cumulative : Nat) (j : Nat) : List Char → List Nat
  | [] => []
  | ch :: rest =>
    if ch = '1' then (j + cumulative + 1) :: maskFramesGo cumulative (j + 1) rest
    else maskFramesGo cumulative (j + 1) rest

/-- The explicit sample frames contributed by one bitmask of one keyframe
block (FromReadWrites.py line 258). -/
def maskFrames (cumulative : Nat) (mask : List Char) : List Nat :=
  maskFramesGo cumulative 0 mask

/-- One channel of the per-block loop of add_anims (FromReadWrites.py lines
257-261): walk the changed bones of the channel in file order, pair each with
its bitmask, convert the bitmask to frame numbers and pop that many values
off the front of the flat value stream (itertools.islice on a shared
iterator). -/
def expandChannel {V : Type} (cumulative : Nat) :
    List (Nat × List Char) → List V → List (Nat × List Nat × List V)
  | [], _ => []
  | (boneIdx, mask) :: rest, values =>
    let frames := maskFrames cumulative mask
    (boneIdx, frames, values.take frames.length) ::
      expandChannel cumulative rest (values.drop frames.length)

/-
  ===========================================================================
  CollatedData/FromReadWrites.py: vertex decoding of add_meshes
  (lines 92-124)
  ===========================================================================
-/

/-- One vertex as decoded by the geometry reader: a dictionary with optional
channels.  Channels that take part in arithmetic are rationals; the packed
bone-id channel values of weight mode 2 are naturals. -/
structure RawVertex where
  position : List ℚ
  normal : Option (List ℚ)
  uv : Option (ℚ × ℚ)
  weightedBoneIDs : Option (List Nat)
  boneWeights : Option (List ℚ)
deriving DecidableEq, Repr

/-- One vertex of the intermediate format (IntermediateFormat.Vertex). -/
structure IFVertex where
  position : List ℚ
  normal : Option (List ℚ)
  uv : Option (ℚ × ℚ)
  vertex_groups : Option (List Int)
  weights : Option (List ℚ)
deriving DecidableEq, Repr

/-- One vertex group of the intermediate format
(IntermediateFormat.VertexGroup). -/
structure IFVertexGroup where
  bone_idx : Nat
  vertex_indices : List Nat
  weights : List ℚ
deriving DecidableEq, Repr

/-- Append one vertex index and weight to a vertex group. -/
def vgAdd (g : IFVertexGroup) (i : Nat) (w : ℚ) : IFVertexGroup :=
  ⟨g.bone_idx, g.vertex_indices ++ [i], g.weights ++ [w]⟩

/-- Python list indexing semantics: a negative index counts from the end and
an index out of range is an IndexError, modelled by none. -/
def pyNorm (len : Nat) (i : Int) : Option Nat :=
  let j := if i < 0 then i + len else i
  if 0 ≤ j ∧ j < (len : Int) then some j.toNat else none

/-- Python int() applied to a rational: truncation toward zero. -/
def pyInt (q : ℚ) : Int := q.num.tdiv q.den

/-- The zip loop of the explicit-weights branch of add_meshes
(FromReadWrites.py lines 104-110): pairs with weight zero are skipped (the
stored id channel value stays untouched); otherwise the channel value is
floor-divided by 3, the vertex is appended to the group at that list
position, and the stored id is replaced by the quotient.  Running past the
group list is an IndexError. -/
def applyWeights (groups : List IFVertexGroup) (i : Nat) :
    List Nat → List ℚ → Option (List IFVertexGroup × List Nat)
  | ids, [] => some (groups, ids)
  | [], _ => some (groups, [])
  | id0 :: ids, w :: ws =>
    if w = 0 then
      match applyWeights groups i ids ws with
      | none => none
      | some (g2, l2) => some (g2, id0 :: l2)
    else
      let idx := id0 / 3
      if h : idx < groups.length then
        match applyWeights (groups.set idx (vgAdd (groups.get ⟨idx, h⟩) i w)) i ids ws with
        | none => none
        | some (g2, l2) => some (g2, idx :: l2)
      else none

/-- The per-vertex body of the mesh loop of add_meshes (FromReadWrites.py
lines 92-124) for one mesh: flips the V coordinate of a present UV channel,
dispatches on the bone-weight layout, and returns the updated vertex group
list together with the stored intermediate vertex.  The parameter
maxVertexGroupsPerVertex is the field max_vertex_groups_per_vertex of the
mesh reader. -/
def processVertex (maxVertexGroupsPerVertex : Nat) (groups : List IFVertexGroup)
    (i : Nat) (v : RawVertex) : Option (List IFVertexGroup × IFVertex) :=
  let uv := v.uv.map (fun p => (p.1, 1 - p.2))
  match v.weightedBoneIDs with
  | some ids =>
    match v.boneWeights with
    | none => none
    | some ws =>
      match applyWeights groups i ids ws with
      | none => none
      | some (g2, ids2) =>
        some (g2, ⟨v.position.take 3, v.normal, uv,
                   some (ids2.map Int.ofNat), v.boneWeights⟩)
  | none =>
    if maxVertexGroupsPerVertex = 0 then
      match pyNorm groups.length 0 with
      | none => none
      | some k =>
        some (groups.set k (vgAdd (groups.getD k ⟨0, [], []⟩) i 1),
              ⟨v.position.take 3, v.normal, uv, some [0], v.boneWeights⟩)
    else if maxVertexGroupsPerVertex = 1 then
      match v.position[3]? with
      | none => none
      | some q =>
        let boneIdx : Int := (pyInt q).fdiv 3
        match pyNorm groups.length boneIdx with
        | none => none
        | some k =>
          some (groups.set k (vgAdd (groups.getD k ⟨0, [], []⟩) i 1),
                ⟨v.position.take 3, v.normal, uv, some [boneIdx], v.boneWeights⟩)
    else
      some (groups, ⟨v.position.take 3, v.normal, uv, none, v.boneWeights⟩)

/-
  ===========================================================================
  CollatedData/FromReadWrites.py: add_skeleton bone positions (lines 192-198)
  and add_materials names (lines 148-155)
  ===========================================================================
-/

/-- One record of the geometry-file bone transform table: a raw position and
three axis vectors. -/
structure BoneDataEntry where
  xpos : ℚ
  ypos : ℚ
  zpos : ℚ
  x_axis : ℚ × ℚ × ℚ
  y_axis : ℚ × ℚ × ℚ
  z_axis : ℚ × ℚ × ℚ
deriving DecidableEq, Repr

/-- A 3 by 3 matrix as three rows. -/
def Mat3 : Type := (ℚ × ℚ × ℚ) × (ℚ × ℚ × ℚ) × (ℚ × ℚ × ℚ)

/-- Matrix transpose (numpy .T). -/
def mat3T (m : Mat3) : Mat3 :=
  ((m.1.1, m.2.1.1, m.2.2.1),
   (m.1.2.1, m.2.1.2.1, m.2.2.2.1),
   (m.1.2.2, m.2.1.2.2, m.2.2.2.2))

/-- Dot product of two 3-vectors. -/
def dot3 (a b : ℚ × ℚ × ℚ) : ℚ :=
  a.1 * b.1 + a.2.1 * b.2.1 + a.2.2 * b.2.2

/-- Matrix-vector product, rows dotted with the vector (numpy dot of a 3 by 3
array with a 3-vector). -/
def mat3Vec (m : Mat3) (v : ℚ × ℚ × ℚ) : ℚ × ℚ × ℚ :=
  (dot3 m.1 v, dot3 m.2.1 v, dot3 m.2.2 v)

/-- add_skeleton (FromReadWrites.py lines 192-198): negate the raw bone
position and push it through the transpose of the matrix whose rows are the
three axis vectors. -/
def add_skeleton_bone_position (bd : BoneDataEntry) : ℚ × ℚ × ℚ :=
  let position := (-bd.xpos, -bd.ypos, -bd.zpos)
  let transform : Mat3 := (bd.x_axis, bd.y_axis, bd.z_axis)
  mat3Vec (mat3T transform) position

/-- Python format spec 03d: decimal digits left-padded with zeros to width
three. -/
def pad3 (i : Nat) : String :=
  if i < 10 then "00" ++ Nat.repr i
  else if i < 100 then "0" ++ Nat.repr i
  else Nat.repr i

/-- add_materials (FromReadWrites.py lines 148-155): the material name list
the assembler produces.  The name-table material names are stored elsewhere
as an opaque convenience and are never consulted here (the source only uses
filename and index, its count assertion being commented out), so every
material of the geometry file receives the synthesized name. -/
def add_materials_names (materialNames : List String) (filename : String)
    (numGeomMaterials : Nat) : List String :=
  (List.range numGeomMaterials).map (fun i => filename ++ "_mat_" ++ pad3 i)

/-
  ===========================================================================
  BlenderIO/Import.py: import_skeleton bone construction (lines 157-161)
  ===========================================================================
-/

/-- The bone-creation loop of ImportDSCSBase.import_skeleton (Import.py lines
157-161), restricted to which bones get materialized: for every relation the
child name is looked up in the name list; a name already created is skipped
with continue, otherwise an edit bone of that name is created (the dict
list_of_bones keeps insertion order, modelled by the accumulator). -/
def skelGo (boneNames : List String) : List (Nat × Int) → List String → List String
  | [], acc => acc
  | (child, _parent) :: rest, acc =>
    let childName := boneNames.getD child ""
    if childName ∈ acc then skelGo boneNames rest acc
    else skelGo boneNames rest (acc ++ [childName])

/-- The ordered list of bone names materialized by import_skeleton. -/
def dscs_import_skeleton_bone_names (boneNames : List String)
    (relations : List (Nat × Int)) : List String :=
  skelGo boneNames relations []

/-- First-occurrence deduplication, accumulator form: the spec-side notion of
one entry per unique child id, first occurrence winning. -/
def firstDedupGo : List Nat → List Nat → List Nat
  | [], acc => acc
  | x :: t, acc =>
    if x ∈ acc then firstDedupGo t acc else firstDedupGo t (acc ++ [x])

/-- First-occurrence deduplication of a list. -/
def firstDedup (l : List Nat) : List Nat := firstDedupGo l []

/-
  ===========================================================================
  Helper lemmas
  ===========================================================================
-/

lemma assocLookup_mem_snd {α β : Type} [DecidableEq α] {a : α} {b : β} :
    ∀ {l : List (α × β)}, assocLookup a l = some b → b ∈ l.map Prod.snd := by
  intro l
  induction l with
  | nil => intro h; simp [assocLookup] at h
  | cons kv t ih =>
    intro h
    obtain ⟨k, v⟩ := kv
    simp only [assocLookup] at h
    by_cases hk : a = k
    · rw [if_pos hk] at h
      injection h with h
      simp [h]
    · rw [if_neg hk] at h
      simpa using Or.inr (ih h)

lemma assocLookup_swap {α β : Type} [DecidableEq α] [DecidableEq β] :
    ∀ (l : List (α × β)), (l.map Prod.snd).Nodup → ∀ (a : α) (b : β),
      assocLookup a l = some b →
      assocLookup b (l.map (fun p => (p.2, p.1))) = some a := by
  intro l
  induction l with
  | nil => intro _ a b h; simp [assocLookup] at h
  | cons kv t ih =>
    intro hnd a b h
    obtain ⟨k, v⟩ := kv
    simp only [List.map_cons, List.nodup_cons] at hnd
    simp only [assocLookup] at h ⊢
    by_cases hk : a = k
    · rw [if_pos hk] at h
      injection h with h
      subst h
      rw [if_pos rfl, hk]
    · rw [if_neg hk] at h
      have hb : b ∈ t.map Prod.snd := assocLookup_mem_snd h
      have hbv : ¬ b = v := fun hbv => hnd.1 (hbv ▸ hb)
      rw [if_neg hbv]
      exact ih hnd.2 a b h

lemma strip_foldl_eq_specStripGo :
    ∀ (rest : List Nat) (a b n : Nat) (acc : List (Nat × Nat × Nat)),
      (((a :: b :: rest).zip ((b :: rest).zip rest)).enumFrom n).foldl tspStep acc =
        specStripGo n a b rest acc := by
  intro rest
  induction rest with
  | nil => intro a b n acc; rfl
  | cons c rest ih =>
    intro a b n acc
    show (((b :: c :: rest).zip ((c :: rest).zip rest)).enumFrom (n + 1)).foldl
          tspStep (tspStep acc (n, (a, b, c))) = _
    rw [ih]
    rfl

/-
  ===========================================================================
  C2: triangle strip decoding
  ===========================================================================
-/

/-- Claim C2, counterexample: the deduplication of triangle_strips_to_polys
compares ordered triples, not unordered index sets.  On the strip
[0, 1, 2, 1, 0] the code emits (0, 1, 2) and then also (2, 1, 0), whose
unordered index set repeats that of the first emitted triangle, so the
emitted list is not free of unordered-set duplicates as the claim states. -/
theorem claim2_counterexample :
    triangle_strips_to_polys [0, 1, 2, 1, 0] = [(0, 1, 2), (2, 1, 0)] ∧
    ¬ (((triangle_strips_to_polys [0, 1, 2, 1, 0]).map triNorm).Nodup) := by
  decide

/-- Claim C2, amended: for every index list decoded as a triangle strip,
triangle k is emitted from the indices at positions k, k+1, k+2 with the
first two swapped on every odd k; a triangle whose three indices are not
pairwise distinct is skipped; and a triangle equal, as an ORDERED triple, to
one already emitted for this strip is skipped (the unordered-set reading of
the deduplication fails, see the counterexample).  In particular the strip
[0, 1, 2, 3, 4] yields exactly (0, 1, 2), (2, 1, 3), (2, 3, 4). -/
theorem claim2_strip_decode :
    triangle_strips_to_polys [0, 1, 2, 3, 4] = [(0, 1, 2), (2, 1, 3), (2, 3, 4)] ∧
    ∀ idxs : List Nat, triangle_strips_to_polys idxs = specStripDecode idxs := by
  refine ⟨by decide, ?_⟩
  intro idxs
  match idxs with
  | [] => rfl
  | [a] => rfl
  | a :: b :: rest =>
    show (((a :: b :: rest).zip ((b :: rest).zip rest)).enumFrom 0).foldl tspStep [] = _
    rw [strip_foldl_eq_specStripGo]
    rfl

/-
  ===========================================================================
  C8: bone position assembly
  ===========================================================================
-/

/-- Claim C8: for every geometry-file bone transform record, the assembled
skeleton bone position equals the raw position negated and multiplied by the
transpose of the 3 by 3 matrix whose rows are the x, y and z axis vectors;
written out componentwise, component i of the result is the dot product of
the i-th column of the axis matrix with the negated raw position. -/
theorem claim8_bone_position (bd : BoneDataEntry) :
    add_skeleton_bone_position bd =
      (bd.x_axis.1 * (-bd.xpos) + bd.y_axis.1 * (-bd.ypos) + bd.z_axis.1 * (-bd.zpos),
       bd.x_axis.2.1 * (-bd.xpos) + bd.y_axis.2.1 * (-bd.ypos) + bd.z_axis.2.1 * (-bd.zpos),
       bd.x_axis.2.2 * (-bd.xpos) + bd.y_axis.2.2 * (-bd.ypos) + bd.z_axis.2.2 * (-bd.zpos)) := by
  rfl

/-
  ===========================================================================
  C4: animation bitmask expansion
  ===========================================================================
-/

lemma maskFramesGo_mem (c : Nat) :
    ∀ (mask : List Char) (j0 f : Nat),
      f ∈ maskFramesGo c j0 mask ↔
        ∃ j, mask.get? j = some '1' ∧ f = j0 + j + c + 1 := by
  intro mask
  induction mask with
  | nil => intro j0 f; simp [maskFramesGo]
  | cons ch t ih =>
    intro j0 f
    rw [maskFramesGo]
    by_cases hch : ch = '1'
    · rw [if_pos hch, List.mem_cons, ih]
      constructor
      · rintro (rfl | ⟨j, hj, rfl⟩)
        · exact ⟨0, by simp [hch], by omega⟩
        · exact ⟨j + 1, by simpa using hj, by omega⟩
      · rintro ⟨j, hj, hf⟩
        cases j with
        | zero => exact Or.inl (by omega)
        | succ j => exact Or.inr ⟨j, by simpa using hj, by omega⟩
    · rw [if_neg hch, ih]
      constructor
      · rintro ⟨j, hj, rfl⟩
        exact ⟨j + 1, by simpa using hj, by omega⟩
      · rintro ⟨j, hj, hf⟩
        cases j with
        | zero =>
          simp only [List.get?_cons_zero, Option.some.injEq] at hj
          exact absurd hj hch
        | succ j => exact ⟨j, by simpa using hj, by omega⟩

lemma expandChannel_parts {V : Type} (c : Nat) :
    ∀ (pairs : List (Nat × List Char)) (values : List V),
      (expandChannel c pairs values).map (fun e => e.1) = pairs.map (fun p => p.1) ∧
      (expandChannel c pairs values).map (fun e => e.2.1) =
        pairs.map (fun p => maskFrames c p.2) ∧
      ((expandChannel c pairs values).map (fun e => e.2.2)).flatten =
        values.take ((pairs.map (fun p => (maskFrames c p.2).length)).sum) := by
  intro pairs
  induction pairs with
  | nil => intro values; simp [expandChannel]
  | cons p rest ih =>
    intro values
    obtain ⟨bidx, mask⟩ := p
    obtain ⟨ih1, ih2, ih3⟩ := ih (values.drop (maskFrames c mask).length)
    refine ⟨by simpa [expandChannel] using ih1, by simpa [expandChannel] using ih2, ?_⟩
    simp only [expandChannel, List.map_cons, List.flatten_cons, ih3, List.sum_cons]
    exact (List.take_add values _ _).symm

/-- Claim C4: in the keyframe expansion of add_anims, a block with cumulative
frame count c and a per-bone bitmask contributes the explicit sample frames
c + j + 1 exactly for the 0-indexed mask positions j holding the digit one
(cumulative 10 with mask 1010 gives frames 11 and 13), and walking the bones
of a channel in file order, each bone consumes the next unread values of that
channel's flat value stream, as many as its mask has ones. -/
theorem claim4_bitmask_expansion :
    maskFrames 10 ['1', '0', '1', '0'] = [11, 13] ∧
    (∀ (c : Nat) (mask : List Char) (f : Nat),
       f ∈ maskFrames c mask ↔ ∃ j, mask.get? j = some '1' ∧ f = c + j + 1) ∧
    (∀ (V : Type) (c : Nat) (pairs : List (Nat × List Char)) (values : List V),
       (expandChannel c pairs values).map (fun e => e.1) = pairs.map (fun p => p.1) ∧
       (expandChannel c pairs values).map (fun e => e.2.1) =
         pairs.map (fun p => maskFrames c p.2) ∧
       ((expandChannel c pairs values).map (fun e => e.2.2)).flatten =
         values.take ((pairs.map (fun p => (maskFrames c p.2).length)).sum)) := by
  refine ⟨by decide, ?_, fun V c pairs values => expandChannel_parts c pairs values⟩
  intro c mask f
  rw [maskFrames, maskFramesGo_mem]
  constructor
  · rintro ⟨j, hj, rfl⟩
    exact ⟨j, hj, by omega⟩
  · rintro ⟨j, hj, rfl⟩
    exact ⟨j, hj, by omega⟩

/-
  ===========================================================================
  C3: shader identifier text form
  ===========================================================================
-/

lemma hexDigitVal_toHexDigit : ∀ n < 16, hexDigitVal (toHexDigit n) = some n := by
  decide

lemma toHexDigit_ne_underscore : ∀ n < 16, toHexDigit n ≠ '_' := by
  decide

lemma underscore_not_mem_bytesHex :
    ∀ (bs : List Nat), (∀ b ∈ bs, b < 256) → '_' ∉ bytesHex bs := by
  intro bs
  induction bs with
  | nil => intro _ h; simp [bytesHex] at h
  | cons b t ih =>
    intro hb h
    have hblt : b < 256 := hb b (List.mem_cons_self b t)
    simp only [bytesHex, List.flatMap_cons, byteToHex, List.cons_append,
               List.nil_append, List.mem_cons] at h
    rcases h with h | h | h
    · exact toHexDigit_ne_underscore (b / 16) (by omega) h.symm
    · exact toHexDigit_ne_underscore (b % 16) (by omega) h.symm
    · exact ih (fun x hx => hb x (List.mem_cons_of_mem b hx)) h

lemma fromHex_bytesHex :
    ∀ (bs : List Nat), (∀ b ∈ bs, b < 256) → fromHex (bytesHex bs) = some bs := by
  intro bs
  induction bs with
  | nil => intro _; rfl
  | cons b t ih =>
    intro hb
    have hblt : b < 256 := hb b (List.mem_cons_self b t)
    show fromHex (toHexDigit (b / 16) :: toHexDigit (b % 16) :: bytesHex t) = some (b :: t)
    rw [fromHex, hexDigitVal_toHexDigit (b / 16) (by omega),
        hexDigitVal_toHexDigit (b % 16) (by omega),
        ih (fun x hx => hb x (List.mem_cons_of_mem b hx))]
    show some ((16 * (b / 16) + b % 16) :: t) = some (b :: t)
    have hbv : 16 * (b / 16) + b % 16 = b := by omega
    rw [hbv]

lemma splitUnderscoreGo_no_underscore :
    ∀ (p : List Char), '_' ∉ p → ∀ cur, splitUnderscoreGo cur p = [cur.reverse ++ p] := by
  intro p
  induction p with
  | nil => intro _ cur; simp [splitUnderscoreGo]
  | cons c t ih =>
    intro hp cur
    have hc : ¬ c = '_' := fun h => hp (h ▸ List.mem_cons_self c t)
    rw [splitUnderscoreGo, if_neg hc, ih (fun h => hp (List.mem_cons_of_mem c h))]
    simp

lemma splitUnderscoreGo_append :
    ∀ (p : List Char), '_' ∉ p → ∀ (rest : List Char) (cur : List Char),
      splitUnderscoreGo cur (p ++ '_' :: rest) =
        (cur.reverse ++ p) :: splitUnderscoreGo [] rest := by
  intro p
  induction p with
  | nil => intro _ rest cur; simp [splitUnderscoreGo]
  | cons c t ih =>
    intro hp rest cur
    have hc : ¬ c = '_' := fun h => hp (h ▸ List.mem_cons_self c t)
    rw [List.cons_append, splitUnderscoreGo, if_neg hc,
        ih (fun h => hp (List.mem_cons_of_mem c h)) rest]
    simp

/-- Claim C3: the shader identifier text form of 16 bytes is the four 4-byte
groups each byte-reversed and lower-case hex encoded, joined with
underscores; on the bytes 0 to 15 this gives the expected example string,
and re-encoding the text form reproduces the original 16 bytes. -/
theorem claim3_shader_hex :
    interpret_shader_hex [0, 1, 2, 3, 4, 5, 6, 7, 8, 9, 10, 11, 12, 13, 14, 15] =
      "03020100_07060504_0b0a0908_0f0e0d0c".toList ∧
    ∀ bs : List Nat, bs.length = 16 → (∀ b ∈ bs, b < 256) →
      reinterpret_shader_hex (interpret_shader_hex bs) = some bs := by
  refine ⟨by decide, ?_⟩
  intro bs hlen hb
  have m1 : ∀ b ∈ (bs.take 4).reverse, b < 256 := fun b h =>
    hb b (List.take_subset 4 bs (List.mem_reverse.mp h))
  have m2 : ∀ b ∈ ((bs.drop 4).take 4).reverse, b < 256 := fun b h =>
    hb b (List.drop_subset 4 bs (List.take_subset 4 (bs.drop 4) (List.mem_reverse.mp h)))
  have m3 : ∀ b ∈ ((bs.drop 8).take 4).reverse, b < 256 := fun b h =>
    hb b (List.drop_subset 8 bs (List.take_subset 4 (bs.drop 8) (List.mem_reverse.mp h)))
  have m4 : ∀ b ∈ ((bs.drop 12).take 4).reverse, b < 256 := fun b h =>
    hb b (List.drop_subset 12 bs (List.take_subset 4 (bs.drop 12) (List.mem_reverse.mp h)))
  have hsplit :
      splitUnderscore (interpret_shader_hex bs) =
        [bytesHex (bs.take 4).reverse, bytesHex ((bs.drop 4).take 4).reverse,
         bytesHex ((bs.drop 8).take 4).reverse, bytesHex ((bs.drop 12).take 4).reverse] := by
    show splitUnderscoreGo []
          (bytesHex (bs.take 4).reverse ++ '_' ::
            (bytesHex ((bs.drop 4).take 4).reverse ++ '_' ::
              (bytesHex ((bs.drop 8).take 4).reverse ++ '_' ::
                bytesHex ((bs.drop 12).take 4).reverse))) = _
    rw [splitUnderscoreGo_append _ (underscore_not_mem_bytesHex _ m1),
        splitUnderscoreGo_append _ (underscore_not_mem_bytesHex _ m2),
        splitUnderscoreGo_append _ (underscore_not_mem_bytesHex _ m3),
        splitUnderscoreGo_no_underscore _ (underscore_not_mem_bytesHex _ m4)]
    simp
  have d48 : (bs.drop 4).drop 4 = bs.drop 8 := by simp [List.drop_drop]
  have d812 : (bs.drop 8).drop 4 = bs.drop 12 := by simp [List.drop_drop]
  have h12 : (bs.drop 12).take 4 = bs.drop 12 :=
    List.take_of_length_le (by simp [hlen])
  have key : bs.take 4 ++ ((bs.drop 4).take 4 ++ ((bs.drop 8).take 4 ++ bs.drop 12)) = bs := by
    calc bs.take 4 ++ ((bs.drop 4).take 4 ++ ((bs.drop 8).take 4 ++ bs.drop 12))
        = bs.take 4 ++ ((bs.drop 4).take 4 ++ ((bs.drop 8).take 4 ++ (bs.drop 8).drop 4)) := by
          rw [d812]
      _ = bs.take 4 ++ ((bs.drop 4).take 4 ++ bs.drop 8) := by rw [List.take_append_drop]
      _ = bs.take 4 ++ ((bs.drop 4).take 4 ++ (bs.drop 4).drop 4) := by rw [d48]
      _ = bs.take 4 ++ bs.drop 4 := by rw [List.take_append_drop]
      _ = bs := List.take_append_drop 4 bs
  simp only [reinterpret_shader_hex, hsplit, fromHex_bytesHex _ m1, fromHex_bytesHex _ m2,
             fromHex_bytesHex _ m3, fromHex_bytesHex _ m4, List.reverse_reverse,
             List.append_assoc]
  rw [h12, key]

/-- Claim C3, witness: the round trip applied to the bytes 0 to 15. -/
theorem claim3_witness :
    reinterpret_shader_hex
        (interpret_shader_hex [0, 1, 2, 3, 4, 5, 6, 7, 8, 9, 10, 11, 12, 13, 14, 15]) =
      some [0, 1, 2, 3, 4, 5, 6, 7, 8, 9, 10, 11, 12, 13, 14, 15] :=
  claim3_shader_hex.2 [0, 1, 2, 3, 4, 5, 6, 7, 8, 9, 10, 11, 12, 13, 14, 15]
    (by decide) (by decide)

/-
  ===========================================================================
  C6: skeleton bone deduplication
  ===========================================================================
-/

lemma getD_inj_of_nodup (bn : List String) (hnd : bn.Nodup) :
    ∀ i j, i < bn.length → j < bn.length → bn.getD i "" = bn.getD j "" → i = j := by
  intro i j hi hj hij
  rw [List.getD_eq_getElem bn "" hi, List.getD_eq_getElem bn "" hj] at hij
  have := (List.Nodup.get_inj_iff hnd (i := ⟨i, hi⟩) (j := ⟨j, hj⟩)).mp (by simpa using hij)
  simpa using congrArg Fin.val this

lemma skelGo_eq_firstDedupGo (bn : List String) (hnd : bn.Nodup) :
    ∀ (rels : List (Nat × Int)) (seen : List Nat),
      (∀ r ∈ rels, r.1 < bn.length) → (∀ c ∈ seen, c < bn.length) →
      skelGo bn rels (seen.map (fun c => bn.getD c "")) =
        (firstDedupGo (rels.map Prod.fst) seen).map (fun c => bn.getD c "") := by
  intro rels
  induction rels with
  | nil => intro seen _ _; rfl
  | cons r rest ih =>
    intro seen hrel hseen
    obtain ⟨c, p⟩ := r
    have hc : c < bn.length := hrel (c, p) (List.mem_cons_self _ _)
    have hmem : (bn.getD c "" ∈ seen.map (fun x => bn.getD x "")) ↔ c ∈ seen := by
      constructor
      · intro h
        obtain ⟨x, hx, hxc⟩ := List.mem_map.mp h
        have := getD_inj_of_nodup bn hnd x c (hseen x hx) hc hxc
        exact this ▸ hx
      · intro h
        exact List.mem_map.mpr ⟨c, h, rfl⟩
    simp only [skelGo, List.map_cons, firstDedupGo]
    by_cases hcs : c ∈ seen
    · rw [if_pos (hmem.mpr hcs), if_pos hcs]
      exact ih seen (fun x hx => hrel x (List.mem_cons_of_mem _ hx)) hseen
    · rw [if_neg (fun h => hcs (hmem.mp h)), if_neg hcs]
      have : (seen.map (fun x => bn.getD x "")) ++ [bn.getD c ""] =
          (seen ++ [c]).map (fun x => bn.getD x "") := by simp
      rw [this]
      refine ih (seen ++ [c]) (fun x hx => hrel x (List.mem_cons_of_mem _ hx)) ?_
      intro x hx
      rcases List.mem_append.mp hx with h | h
      · exact hseen x h
      · simp at h; omega

/-- Claim C6: under the data-model invariants that bone names are unique and
every relation child id indexes a bone name, the bone-creation loop of
the skeleton importer materializes exactly one bone per unique child id of the
relation list, the first occurrence winning; later duplicate relations are
silently skipped, never an error. -/
theorem claim6_skeleton_dedup (boneNames : List String) (relations : List (Nat × Int))
    (hnd : boneNames.Nodup)
    (hvalid : ∀ r ∈ relations, r.1 < boneNames.length) :
    dscs_import_skeleton_bone_names boneNames relations =
      (firstDedup (relations.map Prod.fst)).map (fun c => boneNames.getD c "") := by
  have h := skelGo_eq_firstDedupGo boneNames hnd relations [] hvalid (by simp)
  simpa [dscs_import_skeleton_bone_names, firstDedup] using h

/-- Claim C6, witness: two relations with the same child id 0; only the first
is materialized and the run completes. -/
theorem claim6_witness :
    dscs_import_skeleton_bone_names ["root", "arm"] [(0, -1), (1, 0), (0, -1)] =
      ["root", "arm"] := by
  have h := claim6_skeleton_dedup ["root", "arm"] [(0, -1), (1, 0), (0, -1)]
    (by decide) (by decide)
  rw [h]
  decide

/-
  ===========================================================================
  C7 and C10: vertex decoding
  ===========================================================================
-/

lemma pyInt_natCast (m : Nat) : pyInt (m : ℚ) = (m : Int) := by
  simp [pyInt, Rat.num_natCast, Rat.den_natCast]

lemma fdiv_natCast_three (m : Nat) : ((m : Int)).fdiv 3 = ((m / 3 : Nat) : Int) := by
  rw [Int.fdiv_eq_ediv _ (by omega)]
  omega

lemma pyNorm_natCast (len m : Nat) (h : m < len) : pyNorm len (m : Int) = some m := by
  simp only [pyNorm]
  rw [if_neg (show ¬((m : Int) < 0) by omega)]
  rw [if_pos (show (0 : Int) ≤ (m : Int) ∧ (m : Int) < (len : Int) by omega)]
  simp

/-- Claim C7: for a vertex of a mesh in weight-layout mode 1 (field
max_vertex_groups_per_vertex equal to 1, no explicit per-vertex weight
arrays), add_meshes assigns the vertex to the vertex group at list position
floor of the raw fourth position channel divided by 3, with weight exactly 1,
stores that single bone index in the vertex, and stores no weight array; the
quotient taken by the code equals the floor of a third of the raw channel
value. -/
theorem claim7_weight_mode1 (groups : List IFVertexGroup) (i : Nat) (v : RawVertex)
    (m : Nat)
    (hID : v.weightedBoneIDs = none) (hW : v.boneWeights = none)
    (hpos : v.position[3]? = some (m : ℚ)) (hlt : m / 3 < groups.length) :
    processVertex 1 groups i v =
      some (groups.set (m / 3) (vgAdd (groups.getD (m / 3) ⟨0, [], []⟩) i 1),
            ⟨v.position.take 3, v.normal, v.uv.map (fun p => (p.1, 1 - p.2)),
             some [((m / 3 : Nat) : Int)], none⟩) ∧
    ((m / 3 : Nat) : Int) = ⌊(m : ℚ) / 3⌋ := by
  constructor
  · rw [processVertex, hID, hpos, hW]
    simp only [pyInt_natCast, fdiv_natCast_three, pyNorm_natCast _ _ hlt]
    norm_num
  · have h := Rat.floor_intCast_div_natCast (m : Int) 3
    push_cast at h ⊢
    rw [h]

/-- Claim C7, witness: a raw channel value of 7 yields vertex group 2 with
weight 1 and no weight array. -/
theorem claim7_witness :
    processVertex 1 [⟨3, [], []⟩, ⟨4, [], []⟩, ⟨5, [], []⟩] 0
        ⟨[0, 0, 0, ((7 : Nat) : ℚ)], none, none, none, none⟩ =
      some ([⟨3, [], []⟩, ⟨4, [], []⟩, ⟨5, [], []⟩].set (7 / 3)
              (vgAdd ([⟨3, [], []⟩, ⟨4, [], []⟩, ⟨5, [], []⟩].getD (7 / 3) ⟨0, [], []⟩) 0 1),
            ⟨[(0 : ℚ), 0, 0, ((7 : Nat) : ℚ)].take 3, none, none,
             some [(((7 : Nat) / 3 : Nat) : Int)], none⟩) ∧
    ((((7 : Nat) / 3 : Nat)) : Int) = ⌊(((7 : Nat) : ℚ)) / 3⌋ :=
  claim7_weight_mode1 [⟨3, [], []⟩, ⟨4, [], []⟩, ⟨5, [], []⟩] 0
    ⟨[0, 0, 0, ((7 : Nat) : ℚ)], none, none, none, none⟩ 7 rfl rfl rfl (by norm_num)

/-- Claim C10: whenever the per-vertex body of add_meshes succeeds, the
stored UV of the produced intermediate vertex is the raw UV with its V
coordinate replaced by one minus V, and a vertex without a UV channel is
stored with no UV. -/
theorem claim10_uv_flip (mx : Nat) (groups : List IFVertexGroup) (i : Nat)
    (v : RawVertex) (res : List IFVertexGroup × IFVertex)
    (h : processVertex mx groups i v = some res) :
    res.2.uv = v.uv.map (fun p => (p.1, 1 - p.2)) := by
  cases hids : v.weightedBoneIDs with
  | some ids =>
    cases hws : v.boneWeights with
    | none => simp [processVertex, hids, hws] at h
    | some ws =>
      cases haw : applyWeights groups i ids ws with
      | none => simp [processVertex, hids, hws, haw] at h
      | some gi =>
        obtain ⟨g2, ids2⟩ := gi
        simp only [processVertex, hids, hws, haw] at h
        rw [Option.some.injEq] at h
        subst h
        rfl
  | none =>
    by_cases h0 : mx = 0
    · subst h0
      cases hn : pyNorm groups.length 0 with
      | none => simp [processVertex, hids, hn] at h
      | some k =>
        simp only [processVertex, hids, hn, if_pos rfl, if_true] at h
        rw [Option.some.injEq] at h
        subst h
        rfl
    · by_cases h1 : mx = 1
      · subst h1
        cases hq : v.position[3]? with
        | none => simp [processVertex, hids, hq, h0] at h
        | some q =>
          cases hn : pyNorm groups.length ((pyInt q).fdiv 3) with
          | none => simp [processVertex, hids, hq, hn, h0] at h
          | some k =>
            simp only [processVertex, hids, hq, hn, if_neg h0, if_pos rfl, if_true] at h
            rw [Option.some.injEq] at h
            subst h
            rfl
      · simp only [processVertex, hids, if_neg h0, if_neg h1] at h
        rw [Option.some.injEq] at h
        subst h
        rfl

/-- Claim C10, witness: a vertex with UV one half and one quarter is stored
with UV one half and three quarters; the flip applied through the theorem at
a concrete vertex in the trivial weight layout. -/
theorem claim10_witness :
    (⟨[], none, some ((1 : ℚ)/2, 1 - (1 : ℚ)/4), none, none⟩ : IFVertex).uv =
      (some ((1 : ℚ)/2, (1 : ℚ)/4)).map (fun p => (p.1, 1 - p.2)) :=
  claim10_uv_flip 2 [] 0 ⟨[], none, some ((1 : ℚ)/2, (1 : ℚ)/4), none, none⟩
    ([], ⟨[], none, some ((1 : ℚ)/2, 1 - (1 : ℚ)/4), none, none⟩) rfl

/-
  ===========================================================================
  C9: material name synthesis
  ===========================================================================
-/

/-- Claim C9: whatever the name-table material-name count, even when it
differs from the geometry material count, material assembly completes for all
geometry materials and every material receives the synthesized name built
from the filename and its zero-padded index; in particular materials beyond
the name list never take a name from the name table. -/
theorem claim9_material_names (materialNames : List String) (filename : String)
    (n : Nat) (hmismatch : materialNames.length ≠ n) :
    (add_materials_names materialNames filename n).length = n ∧
    ∀ i, i < n →
      (add_materials_names materialNames filename n).getD i "" =
        filename ++ "_mat_" ++ pad3 i := by
  constructor
  · simp [add_materials_names]
  · intro i hi
    rw [add_materials_names, List.getD_eq_getElem _ _ (by simpa using hi)]
    simp

/-- Claim C9, witness: one name-table name against two geometry materials. -/
theorem claim9_witness :
    (add_materials_names ["a"] "chr" 2).length = 2 ∧
    ∀ i, i < 2 →
      (add_materials_names ["a"] "chr" 2).getD i "" = "chr" ++ "_mat_" ++ pad3 i :=
  claim9_material_names ["a"] "chr" 2 (by decide)

/-
  ===========================================================================
  C1 and C5: 24-byte record round trips
  ===========================================================================
-/

lemma packU16_u16le (b0 b1 : Nat) (h0 : b0 < 256) : packU16 (u16le b0 b1) = [b0, b1] := by
  simp only [packU16, u16le, List.cons.injEq, and_true]
  omega

lemma packU32_u32le (b0 b1 b2 b3 : Nat) (h0 : b0 < 256) (h1 : b1 < 256) (h2 : b2 < 256)
    (h3 : b3 < 256) : packU32 (u32le b0 b1 b2 b3) = [b0, b1, b2, b3] := by
  simp only [packU32, u32le, List.cons.injEq, and_true]
  omega

set_option maxHeartbeats 1000000 in
lemma shader_uniform_names_nodup : (shader_uniform_from_ids.map Prod.snd).Nodup := by
  decide

/-- Claim C1, amended: re-encoding a successfully decoded 24-byte record
reproduces the original bytes, for unknown-component records outright, and
for shader-uniform records provided additionally that the payload bytes
beyond the float-count times 4 prefix are zero in the float case - a
condition the decoder was meant to enforce but does not, its padding check
being dead code (see the counterexample and claim C5). -/
theorem claim1_roundtrip :
    (∀ p0 p1 p2 p3 p4 p5 p6 p7 p8 p9 p10 p11 p12 p13 p14 p15
       t nf s0 s1 r0 r1 r2 r3 : Nat,
      p0 < 256 ∧ p1 < 256 ∧ p2 < 256 ∧ p3 < 256 ∧ p4 < 256 ∧ p5 < 256 ∧
      p6 < 256 ∧ p7 < 256 ∧ p8 < 256 ∧ p9 < 256 ∧ p10 < 256 ∧ p11 < 256 ∧
      p12 < 256 ∧ p13 < 256 ∧ p14 < 256 ∧ p15 < 256 ∧ t < 256 ∧ nf < 256 ∧
      s0 < 256 ∧ s1 < 256 ∧ r0 < 256 ∧ r1 < 256 ∧ r2 < 256 ∧ r3 < 256 →
      ∀ (nm : String) (u : ShaderUniformValue),
        shader_uniform_factory
            [p0, p1, p2, p3, p4, p5, p6, p7, p8, p9, p10, p11, p12, p13, p14, p15,
             t, nf, s0, s1, r0, r1, r2, r3] = some (nm, u) →
        (nf ≠ 0 →
          List.drop (4 * nf)
              [p0, p1, p2, p3, p4, p5, p6, p7, p8, p9, p10, p11, p12, p13, p14, p15] =
            List.replicate (16 - 4 * nf) 0) →
        shader_uniform_data_factory nm u =
          some [p0, p1, p2, p3, p4, p5, p6, p7, p8, p9, p10, p11, p12, p13, p14, p15,
                t, nf, s0, s1, r0, r1, r2, r3]) ∧
    (∀ d0 d1 d2 d3 d4 d5 d6 d7 d8 d9 d10 d11 d12 d13 d14 d15
       t c100 s0 s1 r0 r1 r2 r3 : Nat,
      d0 < 256 ∧ d1 < 256 ∧ d2 < 256 ∧ d3 < 256 ∧ d4 < 256 ∧ d5 < 256 ∧
      d6 < 256 ∧ d7 < 256 ∧ d8 < 256 ∧ d9 < 256 ∧ d10 < 256 ∧ d11 < 256 ∧
      d12 < 256 ∧ d13 < 256 ∧ d14 < 256 ∧ d15 < 256 ∧ t < 256 ∧ c100 < 256 ∧
      s0 < 256 ∧ s1 < 256 ∧ r0 < 256 ∧ r1 < 256 ∧ r2 < 256 ∧ r3 < 256 →
      ∀ (tg : Nat) (vals : List Nat),
        umc_factory
            [d0, d1, d2, d3, d4, d5, d6, d7, d8, d9, d10, d11, d12, d13, d14, d15,
             t, c100, s0, s1, r0, r1, r2, r3] = some (tg, vals) →
        umc_data_factory tg vals =
          some [d0, d1, d2, d3, d4, d5, d6, d7, d8, d9, d10, d11, d12, d13, d14, d15,
                t, c100, s0, s1, r0, r1, r2, r3]) := by
  constructor
  · intro p0 p1 p2 p3 p4 p5 p6 p7 p8 p9 p10 p11 p12 p13 p14 p15
      t nf s0 s1 r0 r1 r2 r3 hb nm u hdec htail
    obtain ⟨h0, h1, h2, h3, h4, h5, h6, h7, h8, h9, h10, h11, h12, h13, h14, h15,
            ht, hnf256, hs0, hs1, hr0b, hr1b, hr2b, hr3b⟩ := hb
    simp only [shader_uniform_factory] at hdec
    cases hlk : assocLookup t shader_uniform_from_ids with
    | none => rw [hlk] at hdec; simp at hdec
    | some name =>
      simp only [hlk] at hdec
      by_cases hsent : u16le s0 s1 = 65280 ∧ u32le r0 r1 r2 r3 = 0
      case neg => rw [if_neg hsent] at hdec; simp at hdec
      rw [if_pos hsent] at hdec
      obtain ⟨hs65, hrz⟩ := hsent
      have hswap : assocLookup name shader_uniform_from_names = some t :=
        assocLookup_swap shader_uniform_from_ids shader_uniform_names_nodup t name hlk
      by_cases hnf : nf = 0
      · subst hnf
        rw [if_pos rfl] at hdec
        by_cases hint : u16le p2 p3 = 0 ∧ u16le p4 p5 = 0 ∧ u16le p6 p7 = 0 ∧
            u16le p8 p9 = 0 ∧ u16le p10 p11 = 0
        case neg => rw [if_neg hint] at hdec; simp at hdec
        rw [if_pos hint] at hdec
        by_cases hmem : (name, 0) ∈ shader_uniforms_from_defn_keys
        case neg => rw [if_neg hmem] at hdec; simp at hdec
        rw [if_pos hmem, Option.some.injEq] at hdec
        injection hdec with hdec1 hdec2
        subst hdec1
        subst hdec2
        simp only [shader_uniform_data_factory, hswap]
        rw [if_pos (show t < 256 ∧ (0 : Nat) < 256 from ⟨ht, by omega⟩)]
        rw [if_true]
        rw [if_pos (show u16le p0 p1 < 65536 ∧ u16le p12 p13 < 65536 ∧ u16le p14 p15 < 65536 from by
          simp only [u16le]; omega)]
        rw [packU16_u16le p0 p1 h0, packU16_u16le p12 p13 h12, packU16_u16le p14 p15 h14]
        rw [show packU16 65280 = [0, 255] from rfl, show packU32 0 = [0, 0, 0, 0] from rfl,
            show List.replicate 10 (0 : Nat) = [0, 0, 0, 0, 0, 0, 0, 0, 0, 0] from rfl]
        simp only [List.cons_append, List.nil_append, Option.some.injEq, List.cons.injEq,
                   and_true, true_and, u16le] at hint ⊢
        simp only [u16le] at hs65
        simp only [u32le] at hrz
        omega
      · rw [if_neg hnf] at hdec
        by_cases h44 : 4 * nf ≤ 16
        case neg => rw [if_neg h44] at hdec; simp at hdec
        rw [if_pos h44] at hdec
        by_cases hmem : (name, nf) ∈ shader_uniforms_from_defn_keys
        case neg => rw [if_neg hmem] at hdec; simp at hdec
        rw [if_pos hmem, Option.some.injEq] at hdec
        injection hdec with hdec1 hdec2
        subst hdec1
        subst hdec2
        have hz := htail hnf
        have hnf1 : 1 ≤ nf := by omega
        have hnf4 : nf ≤ 4 := by omega
        simp only [shader_uniform_data_factory, hswap]
        interval_cases nf
        · rw [show List.take 1 [u32le p0 p1 p2 p3, u32le p4 p5 p6 p7, u32le p8 p9 p10 p11,
                u32le p12 p13 p14 p15] = [u32le p0 p1 p2 p3] from rfl]
          rw [if_pos (show t < 256 ∧ (1 : Nat) < 256 from ⟨ht, by omega⟩)]
          rw [if_neg (show ¬ (1 : Nat) = 0 from by omega)]
          rw [if_pos (show ([u32le p0 p1 p2 p3] : List Nat).length = 1 from rfl)]
          rw [show ([u32le p0 p1 p2 p3].map packU32).flatten = packU32 (u32le p0 p1 p2 p3) from by
            simp]
          rw [packU32_u32le p0 p1 p2 p3 h0 h1 h2 h3]
          rw [show List.replicate (4 * (4 - 1)) (0 : Nat) =
                [0, 0, 0, 0, 0, 0, 0, 0, 0, 0, 0, 0] from rfl,
              show packU16 65280 = [0, 255] from rfl, show packU32 0 = [0, 0, 0, 0] from rfl]
          rw [show List.drop (4 * 1) [p0, p1, p2, p3, p4, p5, p6, p7, p8, p9, p10, p11,
                p12, p13, p14, p15] = [p4, p5, p6, p7, p8, p9, p10, p11, p12, p13, p14, p15]
              from rfl, show List.replicate (16 - 4 * 1) (0 : Nat) =
                [0, 0, 0, 0, 0, 0, 0, 0, 0, 0, 0, 0] from rfl] at hz
          simp only [List.cons.injEq, and_true] at hz
          simp only [List.cons_append, List.nil_append, Option.some.injEq, List.cons.injEq,
                     and_true, true_and]
          simp only [u16le] at hs65
          simp only [u32le] at hrz
          omega
        · rw [show List.take 2 [u32le p0 p1 p2 p3, u32le p4 p5 p6 p7, u32le p8 p9 p10 p11,
                u32le p12 p13 p14 p15] = [u32le p0 p1 p2 p3, u32le p4 p5 p6 p7] from rfl]
          rw [if_pos (show t < 256 ∧ (2 : Nat) < 256 from ⟨ht, by omega⟩)]
          rw [if_neg (show ¬ (2 : Nat) = 0 from by omega)]
          rw [if_pos (show ([u32le p0 p1 p2 p3, u32le p4 p5 p6 p7] : List Nat).length = 2
              from rfl)]
          rw [show ([u32le p0 p1 p2 p3, u32le p4 p5 p6 p7].map packU32).flatten =
                packU32 (u32le p0 p1 p2 p3) ++ packU32 (u32le p4 p5 p6 p7) from by simp]
          rw [packU32_u32le p0 p1 p2 p3 h0 h1 h2 h3, packU32_u32le p4 p5 p6 p7 h4 h5 h6 h7]
          rw [show List.replicate (4 * (4 - 2)) (0 : Nat) = [0, 0, 0, 0, 0, 0, 0, 0] from rfl,
              show packU16 65280 = [0, 255] from rfl, show packU32 0 = [0, 0, 0, 0] from rfl]
          rw [show List.drop (4 * 2) [p0, p1, p2, p3, p4, p5, p6, p7, p8, p9, p10, p11,
                p12, p13, p14, p15] = [p8, p9, p10, p11, p12, p13, p14, p15] from rfl,
              show List.replicate (16 - 4 * 2) (0 : Nat) = [0, 0, 0, 0, 0, 0, 0, 0] from rfl] at hz
          simp only [List.cons.injEq, and_true] at hz
          simp only [List.cons_append, List.nil_append, Option.some.injEq, List.cons.injEq,
                     and_true, true_and]
          simp only [u16le] at hs65
          simp only [u32le] at hrz
          omega
        · rw [show List.take 3 [u32le p0 p1 p2 p3, u32le p4 p5 p6 p7, u32le p8 p9 p10 p11,
                u32le p12 p13 p14 p15] =
                [u32le p0 p1 p2 p3, u32le p4 p5 p6 p7, u32le p8 p9 p10 p11] from rfl]
          rw [if_pos (show t < 256 ∧ (3 : Nat) < 256 from ⟨ht, by omega⟩)]
          rw [if_neg (show ¬ (3 : Nat) = 0 from by omega)]
          rw [if_pos (show ([u32le p0 p1 p2 p3, u32le p4 p5 p6 p7,
                u32le p8 p9 p10 p11] : List Nat).length = 3 from rfl)]
          rw [show ([u32le p0 p1 p2 p3, u32le p4 p5 p6 p7, u32le p8 p9 p10 p11].map
                packU32).flatten = packU32 (u32le p0 p1 p2 p3) ++ packU32 (u32le p4 p5 p6 p7) ++
                packU32 (u32le p8 p9 p10 p11) from by simp]
          rw [packU32_u32le p0 p1 p2 p3 h0 h1 h2 h3, packU32_u32le p4 p5 p6 p7 h4 h5 h6 h7,
              packU32_u32le p8 p9 p10 p11 h8 h9 h10 h11]
          rw [show List.replicate (4 * (4 - 3)) (0 : Nat) = [0, 0, 0, 0] from rfl,
              show packU16 65280 = [0, 255] from rfl, show packU32 0 = [0, 0, 0, 0] from rfl]
          rw [show List.drop (4 * 3) [p0, p1, p2, p3, p4, p5, p6, p7, p8, p9, p10, p11,
                p12, p13, p14, p15] = [p12, p13, p14, p15] from rfl,
              show List.replicate (16 - 4 * 3) (0 : Nat) = [0, 0, 0, 0] from rfl] at hz
          simp only [List.cons.injEq, and_true] at hz
          simp only [List.cons_append, List.nil_append, List.append_assoc, Option.some.injEq,
                     List.cons.injEq, and_true, true_and]
          simp only [u16le] at hs65
          simp only [u32le] at hrz
          omega
        · rw [show List.take 4 [u32le p0 p1 p2 p3, u32le p4 p5 p6 p7, u32le p8 p9 p10 p11,
                u32le p12 p13 p14 p15] =
                [u32le p0 p1 p2 p3, u32le p4 p5 p6 p7, u32le p8 p9 p10 p11,
                 u32le p12 p13 p14 p15] from rfl]
          rw [if_pos (show t < 256 ∧ (4 : Nat) < 256 from ⟨ht, by omega⟩)]
          rw [if_neg (show ¬ (4 : Nat) = 0 from by omega)]
          rw [if_pos (show ([u32le p0 p1 p2 p3, u32le p4 p5 p6 p7, u32le p8 p9 p10 p11,
                u32le p12 p13 p14 p15] : List Nat).length = 4 from rfl)]
          rw [show ([u32le p0 p1 p2 p3, u32le p4 p5 p6 p7, u32le p8 p9 p10 p11,
                u32le p12 p13 p14 p15].map packU32).flatten =
                packU32 (u32le p0 p1 p2 p3) ++ packU32 (u32le p4 p5 p6 p7) ++
                packU32 (u32le p8 p9 p10 p11) ++ packU32 (u32le p12 p13 p14 p15) from by simp]
          rw [packU32_u32le p0 p1 p2 p3 h0 h1 h2 h3, packU32_u32le p4 p5 p6 p7 h4 h5 h6 h7,
              packU32_u32le p8 p9 p10 p11 h8 h9 h10 h11,
              packU32_u32le p12 p13 p14 p15 h12 h13 h14 h15]
          rw [show List.replicate (4 * (4 - 4)) (0 : Nat) = [] from rfl,
              show packU16 65280 = [0, 255] from rfl, show packU32 0 = [0, 0, 0, 0] from rfl]
          simp only [List.cons_append, List.nil_append, List.append_nil, List.append_assoc,
                     Option.some.injEq, List.cons.injEq, and_true, true_and]
          simp only [u16le] at hs65
          simp only [u32le] at hrz
          omega
  · intro d0 d1 d2 d3 d4 d5 d6 d7 d8 d9 d10 d11 d12 d13 d14 d15
      t c100 s0 s1 r0 r1 r2 r3 hb tg vals hdec
    obtain ⟨h0, h1, h2, h3, h4, h5, h6, h7, h8, h9, h10, h11, h12, h13, h14, h15,
            ht, hc, hs0, hs1, hr0b, hr1b, hr2b, hr3b⟩ := hb
    simp only [umc_factory] at hdec
    by_cases hpad : u16le d8 d9 = 0 ∧ u16le d10 d11 = 0 ∧ u16le d12 d13 = 0 ∧ u16le d14 d15 = 0
    case neg => rw [if_neg hpad] at hdec; simp at hdec
    rw [if_pos hpad] at hdec
    by_cases hsent : c100 = 100 ∧ u16le s0 s1 = 65280 ∧ u32le r0 r1 r2 r3 = 0
    case neg => rw [if_neg hsent] at hdec; simp at hdec
    rw [if_pos hsent] at hdec
    obtain ⟨hc100, hs65, hrz⟩ := hsent
    cases hlk : assocLookup t possibly_umc_types with
    | none => rw [hlk] at hdec; simp at hdec
    | some fmt =>
      simp only [hlk] at hdec
      rw [Option.some.injEq] at hdec
      injection hdec with hdec1 hdec2
      subst hdec1
      subst hdec2
      simp only [umc_data_factory, hlk]
      cases fmt with
      | fmtIf =>
        have hpack : packUMC UMCFormat.fmtIf [u32le d0 d1 d2 d3, u32le d4 d5 d6 d7] =
            some ([d0, d1, d2, d3] ++ [d4, d5, d6, d7]) := by
          simp only [packUMC]
          rw [if_pos (show u32le d0 d1 d2 d3 < 4294967296 ∧ u32le d4 d5 d6 d7 < 4294967296
              from by simp only [u32le]; omega)]
          rw [packU32_u32le d0 d1 d2 d3 h0 h1 h2 h3, packU32_u32le d4 d5 d6 d7 h4 h5 h6 h7]
        simp only [unpackUMC] at hpack ⊢
        simp only [hpack]
        rw [if_pos ht]
        rw [show packU16 0 = [0, 0] from rfl, show packU16 65280 = [0, 255] from rfl,
            show packU32 0 = [0, 0, 0, 0] from rfl]
        simp only [List.cons_append, List.nil_append, Option.some.injEq, List.cons.injEq,
                   and_true, true_and]
        simp only [u16le] at hpad hs65
        simp only [u32le] at hrz
        omega
      | fmtII =>
        have hpack : packUMC UMCFormat.fmtII [u32le d0 d1 d2 d3, u32le d4 d5 d6 d7] =
            some ([d0, d1, d2, d3] ++ [d4, d5, d6, d7]) := by
          simp only [packUMC]
          rw [if_pos (show u32le d0 d1 d2 d3 < 4294967296 ∧ u32le d4 d5 d6 d7 < 4294967296
              from by simp only [u32le]; omega)]
          rw [packU32_u32le d0 d1 d2 d3 h0 h1 h2 h3, packU32_u32le d4 d5 d6 d7 h4 h5 h6 h7]
        simp only [unpackUMC] at hpack ⊢
        simp only [hpack]
        rw [if_pos ht]
        rw [show packU16 0 = [0, 0] from rfl, show packU16 65280 = [0, 255] from rfl,
            show packU32 0 = [0, 0, 0, 0] from rfl]
        simp only [List.cons_append, List.nil_append, Option.some.injEq, List.cons.injEq,
                   and_true, true_and]
        simp only [u16le] at hpad hs65
        simp only [u32le] at hrz
        omega
      | fmtHHI =>
        have hpack : packUMC UMCFormat.fmtHHI [u16le d0 d1, u16le d2 d3, u32le d4 d5 d6 d7] =
            some ([d0, d1] ++ [d2, d3] ++ [d4, d5, d6, d7]) := by
          simp only [packUMC]
          rw [if_pos (show u16le d0 d1 < 65536 ∧ u16le d2 d3 < 65536 ∧
              u32le d4 d5 d6 d7 < 4294967296 from by simp only [u16le, u32le]; omega)]
          rw [packU16_u16le d0 d1 h0, packU16_u16le d2 d3 h2,
              packU32_u32le d4 d5 d6 d7 h4 h5 h6 h7]
        simp only [unpackUMC] at hpack ⊢
        simp only [hpack]
        rw [if_pos ht]
        rw [show packU16 0 = [0, 0] from rfl, show packU16 65280 = [0, 255] from rfl,
            show packU32 0 = [0, 0, 0, 0] from rfl]
        simp only [List.cons_append, List.nil_append, Option.some.injEq, List.cons.injEq,
                   and_true, true_and]
        simp only [u16le] at hpad hs65
        simp only [u32le] at hrz
        omega

/-- A 24-byte Bumpiness record (float count 1) whose payload bytes beyond the
4-byte float prefix are not zero: all sentinel checks pass and the dead
padding check of the decoder accepts it. -/
def c1_nonzero_tail_record : List Nat :=
  [0, 0, 128, 63, 1, 0, 0, 0, 0, 0, 0, 0, 0, 0, 0, 0, 54, 1, 0, 255, 0, 0, 0, 0]

/-- Claim C1, counterexample: this record decodes successfully (every check
the decoder actually executes passes), yet re-encoding the decoded value does
not reproduce the original bytes - the nonzero payload byte at offset 4 is
replaced by padding. -/
theorem claim1_counterexample :
    shader_uniform_factory c1_nonzero_tail_record =
      some ("Bumpiness", ⟨1, [1065353216]⟩) ∧
    shader_uniform_data_factory "Bumpiness" ⟨1, [1065353216]⟩ ≠
      some c1_nonzero_tail_record := by
  decide

/-- Claim C1, witness: the round trip applied to a concrete texture-id record
and a concrete unknown-component record. -/
theorem claim1_witness :
    shader_uniform_data_factory "DiffuseTextureID" ⟨0, [7, 1, 2]⟩ =
      some [7, 0, 0, 0, 0, 0, 0, 0, 0, 0, 0, 0, 1, 0, 2, 0, 50, 0, 0, 255, 0, 0, 0, 0] ∧
    umc_data_factory 160 [516, 1077936128] =
      some [4, 2, 0, 0, 0, 0, 64, 64, 0, 0, 0, 0, 0, 0, 0, 0, 160, 100, 0, 255, 0, 0, 0, 0] :=
  ⟨claim1_roundtrip.1 7 0 0 0 0 0 0 0 0 0 0 0 1 0 2 0 50 0 0 255 0 0 0 0
     (by decide) "DiffuseTextureID" ⟨0, [7, 1, 2]⟩ (by decide)
     (fun h => absurd rfl h),
   claim1_roundtrip.2 4 2 0 0 0 0 64 64 0 0 0 0 0 0 0 0 160 100 0 255 0 0 0 0
     (by decide) 160 [516, 1077936128] (by decide)⟩

/-
  ===========================================================================
  C5: the dead padding check of the float branch
  ===========================================================================
-/

/-- A 24-byte Bumpiness record (float count 1) carrying the nonzero byte 9 in
every payload position beyond the 4-byte float prefix. -/
def c5_failing_record : List Nat :=
  [0, 0, 128, 63, 9, 9, 9, 9, 9, 9, 9, 9, 9, 9, 9, 9, 54, 1, 0, 255, 0, 0, 0, 0]

/-- Claim C5: the claim says such a record must fail to decode, matching the
intent of the padding assertions of the source; but the padding loop of the
float branch iterates over an always-empty slice (the tuple was truncated to
num_floats entries before the loop), so the decoder accepts the record - the
code, not the claim, is at fault.  This theorem evaluates the decoder at such
a failing input. -/
theorem claim5_dead_zero_check :
    shader_uniform_factory c5_failing_record =
      some ("Bumpiness", ⟨1, [1065353216]⟩) := by
  decide
